import Mathlib

/-!
Shallow embedding of the ADRIE disaster-response planning core
(src/models/models.py, src/core/config.py, src/services/*.py).

Python floats are modelled as exact rationals (ℚ); Python dicts keyed by
coordinates are modelled as functions `Coordinate → Option _` (a missing
key is `none`); operations that can raise (Pydantic validation, KeyError,
unbounded loops) return `Option`/`Except`.  Identifiers (UUIDs) are
modelled as `Nat`.
-/

namespace Adrie

/-- models.py `Coordinate`: a pair of non-negative integers. -/
structure Coordinate where
  x : Nat
  y : Nat
deriving DecidableEq, Repr

/-- models.py `Coordinate.__lt__`: lexicographic order on (x, y). -/
def Coordinate.pyLt (a b : Coordinate) : Bool :=
  if a.x < b.x then true
  else if a.x = b.x && a.y < b.y then true
  else false

/-- Manhattan distance between two coordinates (used by the allocator and
the A* heuristic: `abs(ax - bx) + abs(ay - by)`). -/
def manhattan (a b : Coordinate) : Nat :=
  ((a.x : Int) - (b.x : Int)).natAbs + ((a.y : Int) - (b.y : Int)).natAbs

/-- Python's `min` on two floats: the first argument when they tie. -/
def pyMin (a b : ℚ) : ℚ := if a ≤ b then a else b

/-- Python's `max` on two floats: the first argument when they tie. -/
def pyMax (a b : ℚ) : ℚ := if b ≤ a then a else b

/-- models.py `GridNode`. -/
structure GridNode where
  coordinate : Coordinate
  is_passable : Bool
  elevation : Int
deriving DecidableEq, Repr

/-- models.py `HazardType`. -/
inductive HazardType where
  | fire
  | collapse
  | flood
  | gas_leak
  | debris
deriving DecidableEq, Repr

/-- models.py `Hazard` (intensity is a float in [0,1] under Pydantic
validation; we carry the raw rational and state range facts as hypotheses). -/
structure Hazard where
  id : Nat
  type : HazardType
  location : Coordinate
  intensity : ℚ
  radius : Nat
  dynamic : Bool
  risk_factor : ℚ
deriving DecidableEq, Repr

/-- models.py `RiskLevel`. -/
inductive RiskLevel where
  | low
  | medium
  | high
  | critical
deriving DecidableEq, Repr

/-- models.py `NodeRisk`. -/
structure NodeRisk where
  coordinate : Coordinate
  total_risk : ℚ
  dominant_hazard : Option HazardType
  risk_level : RiskLevel
deriving DecidableEq, Repr

/-- models.py `InjurySeverity`. -/
inductive InjurySeverity where
  | mild
  | moderate
  | severe
  | critical
deriving DecidableEq, Repr

/-- models.py `VictimStatus`. -/
inductive VictimStatus where
  | trapped
  | injured
  | safe
  | deceased
  | unknown
deriving DecidableEq, Repr

/-- models.py `Victim`. -/
structure Victim where
  id : Nat
  location : Coordinate
  injury_severity : InjurySeverity
  time_since_incident_minutes : Nat
  estimated_survival_window_minutes : Nat
  status : VictimStatus
  accessibility_risk : ℚ
  priority_score : ℚ
  is_rescued : Bool
  assigned_agent_id : Option Nat
deriving DecidableEq, Repr

/-- models.py `AgentStatus`. -/
inductive AgentStatus where
  | idle
  | moving
  | searching
  | rescuing
  | returning_to_base
  | damaged
  | offline
deriving DecidableEq, Repr

/-- models.py `AgentCapability`. -/
inductive AgentCapability where
  | search_victims
  | extract_victims
  | clear_debris
  | assess_hazards
  | carry_supplies
deriving DecidableEq, Repr

/-- models.py `Agent` (fields used by the core services). -/
structure Agent where
  id : Nat
  name : String
  current_location : Coordinate
  status : AgentStatus
  capabilities : List AgentCapability
  assigned_victim_id : Option Nat
deriving DecidableEq, Repr

/-- models.py `AgentTask`.  `estimated_time_seconds` is declared
`PositiveInt` in the source; construction validates it (see `mkAgentTask`). -/
structure AgentTask where
  type : String
  target_location : Option Coordinate
  victim_id : Option Nat
  path_to_target : List Coordinate
  expected_risk_exposure : ℚ
  estimated_time_seconds : Int
deriving DecidableEq, Repr

/-- Pydantic validation for `AgentTask`: `estimated_time_seconds : PositiveInt`
(> 0) and `expected_risk_exposure ∈ [0,1]`; returns `none` on a
ValidationError. -/
def mkAgentTask (ty : String) (target : Option Coordinate) (vid : Option Nat)
    (path : List Coordinate) (risk : ℚ) (secs : Int) : Option AgentTask :=
  if secs ≤ 0 then none
  else if risk < 0 ∨ 1 < risk then none
  else some ⟨ty, target, vid, path, risk, secs⟩

/-- models.py `MissionStatus`. -/
inductive MissionStatus where
  | pending
  | in_progress
  | completed
  | failed
  | cancelled
deriving DecidableEq, Repr

/-- Per-kind hazard weights, config.py `Settings` defaults
(`HAZARD_*_WEIGHT`). -/
def hazardWeight : HazardType → ℚ
  | .fire => 8/10
  | .collapse => 1
  | .flood => 6/10
  | .gas_leak => 9/10
  | .debris => 4/10

/-- config.py `RISK_PROPAGATION_FACTOR` default. -/
def RISK_PROPAGATION_FACTOR : ℚ := 1/10

/-- config.py `RISK_DECAY_FACTOR_BASE` default. -/
def RISK_DECAY_FACTOR_BASE : ℚ := 1

/-- The environment state owned by `EnvironmentService`
(environment_service.py): square grid size, the grid, hazards, victims and
the current risk map. -/
structure EnvState where
  grid_size : Nat
  grid : Coordinate → Option GridNode
  hazards : List Hazard
  victims : List Victim
  current_risk_map : Coordinate → Option NodeRisk

/-- An integer point lies inside the `n × n` grid. -/
def inBoundsInt (n : Nat) (mx my : Int) : Bool :=
  0 ≤ mx && mx < (n : Int) && 0 ≤ my && my < (n : Int)

/-- A coordinate lies inside the `n × n` grid. -/
def inBounds (n : Nat) (c : Coordinate) : Bool :=
  c.x < n && c.y < n

/-- environment_service.py `EnvironmentService.get_neighbors`: the
4-connected in-bounds neighbors whose grid node exists and is passable, in
the source's move order (+x, -x, +y, -y). -/
def EnvState.get_neighbors (env : EnvState) (c : Coordinate) : List Coordinate :=
  let moves : List (Int × Int) :=
    [((c.x : Int) + 1, (c.y : Int)), ((c.x : Int) - 1, (c.y : Int)),
     ((c.x : Int), (c.y : Int) + 1), ((c.x : Int), (c.y : Int) - 1)]
  moves.filterMap (fun m =>
    if inBoundsInt env.grid_size m.1 m.2 then
      let mv : Coordinate := ⟨m.1.toNat, m.2.toNat⟩
      match env.grid mv with
      | some node => if node.is_passable then some mv else none
      | none => none
    else none)

/-- environment_service.py `EnvironmentService.get_grid_node`. -/
def EnvState.get_grid_node (env : EnvState) (c : Coordinate) : Option GridNode :=
  env.grid c

/-- environment_service.py `EnvironmentService.get_risk_at_coordinate`
(also re-exported by risk_service.py `RiskService.get_risk_at_coordinate`). -/
def EnvState.get_risk_at_coordinate (env : EnvState) (c : Coordinate) :
    Option NodeRisk :=
  env.current_risk_map c

/-- risk_service.py `RiskService._get_risk_level`: threshold
classification of a total-risk value. -/
def getRiskLevel (total_risk : ℚ) : RiskLevel :=
  if 8/10 ≤ total_risk then .critical
  else if 5/10 ≤ total_risk then .high
  else if 2/10 ≤ total_risk then .medium
  else .low

/-- A dict of `NodeRisk` keyed by coordinate (risk_service.py `risk_map`). -/
def RiskMap : Type := Coordinate → Option NodeRisk

/-- The offset range `range(-radius, radius + 1)` as integers. -/
def offsetRange (radius : Nat) : List Int :=
  (List.range (2 * radius + 1)).map (fun (i : Nat) => (i : Int) - (radius : Int))

/-- The double loop `for x_offset in range(-r, r+1): for y_offset in
range(-r, r+1)` of `_apply_hazard_risk`, in iteration order. -/
def squareOffsets (radius : Nat) : List (Int × Int) :=
  (offsetRange radius).flatMap (fun dx => (offsetRange radius).map (fun dy => (dx, dy)))

/-- One iteration of the `_apply_hazard_risk` inner loop body: if the
offset lies in the diamond and the target cell is in bounds, bump that
cell's `total_risk` (clamped at 1.0) and update its `dominant_hazard`. -/
def applyHazardOffset (hazard : Hazard) (grid_size : Nat)
    (m : RiskMap) (off : Int × Int) : RiskMap :=
  if (off.1.natAbs + off.2.natAbs) ≤ hazard.radius then
    let tx : Int := (hazard.location.x : Int) + off.1
    let ty : Int := (hazard.location.y : Int) + off.2
    if inBoundsInt grid_size tx ty then
      -- the source's extra clamp of (tx, ty) into the grid is a no-op here
      let target : Coordinate := ⟨tx.toNat, ty.toNat⟩
      let distance : ℚ := (max 1 (off.1.natAbs + off.2.natAbs) : Nat)
      let decay_factor : ℚ := RISK_DECAY_FACTOR_BASE / distance
      let risk_contribution : ℚ := hazard.intensity * hazardWeight hazard.type * decay_factor
      fun c =>
        if c = target then
          (m target).map (fun nr =>
            let nr := { nr with total_risk := pyMin 1 (nr.total_risk + risk_contribution) }
            match nr.dominant_hazard with
            | none => { nr with dominant_hazard := some hazard.type }
            | some d =>
                if hazardWeight d < risk_contribution then
                  { nr with dominant_hazard := some hazard.type }
                else nr)
        else m c
    else m
  else m

/-- risk_service.py `RiskService._apply_hazard_risk`. -/
def applyHazardRisk (hazard : Hazard) (m : RiskMap) (grid_size : Nat) : RiskMap :=
  (squareOffsets hazard.radius).foldl (applyHazardOffset hazard grid_size) m

/-- The grid coordinates in the iteration order of
`for x in range(n): for y in range(n)`. -/
def gridCoords (n : Nat) : List Coordinate :=
  (List.range n).flatMap (fun x => (List.range n).map (fun y => Coordinate.mk x y))

/-- The initialization loop of `_sync_recalculate_risk_map_logic`: every
in-bounds coordinate is mapped to a zero-risk `NodeRisk`; nothing else is
in the dict. -/
def initRiskMap (n : Nat) : RiskMap :=
  fun c => if inBounds n c then some ⟨c, 0, none, .low⟩ else none

/-- Inner body of `_propagate_risk_to_neighbors` for one source cell:
if the cell has positive `total_risk` in the snapshot `m`, raise every
passable neighbor's entry of the parallel value table `nv` to
`min 1 (max old (risk · RISK_PROPAGATION_FACTOR))`.  (A missing key would
be a Python KeyError; after initialization every in-bounds key is
present.) -/
def propagateCell (env : EnvState) (m : RiskMap)
    (nv : Coordinate → Option ℚ) (c : Coordinate) : Coordinate → Option ℚ :=
  match m c with
  | none => nv
  | some nr =>
    if 0 < nr.total_risk then
      (env.get_neighbors c).foldl (fun nv2 nb =>
        let propagated := nr.total_risk * RISK_PROPAGATION_FACTOR
        fun c2 => if c2 = nb then (nv2 nb).map (fun v => pyMin 1 (pyMax v propagated)) else nv2 c2) nv
    else nv

/-- The write-back loop of `_propagate_risk_to_neighbors`: copy the new
value table into the risk map and refresh each entry's `risk_level`. -/
def applyNewRiskValues (m : RiskMap) (nv : Coordinate → Option ℚ) : RiskMap :=
  fun c =>
    match m c, nv c with
    | some nr, some v => some { nr with total_risk := v, risk_level := getRiskLevel v }
    | some nr, none => some nr
    | none, _ => none

/-- One iteration of risk_service.py `_propagate_risk_to_neighbors`:
snapshot all `total_risk` values, bleed risk to passable neighbors, then
write the snapshot back. -/
def propagateOnePass (env : EnvState) (m : RiskMap) (grid_size : Nat) : RiskMap :=
  let nv0 : Coordinate → Option ℚ := fun c => (m c).map (·.total_risk)
  let nv := (gridCoords grid_size).foldl (propagateCell env m) nv0
  applyNewRiskValues m nv

/-- risk_service.py `_propagate_risk_to_neighbors` with its `iterations`
parameter (default 1 at the call site in `_sync_recalculate_risk_map_logic`). -/
def propagateRiskToNeighbors (env : EnvState) (m : RiskMap) (grid_size : Nat) :
    Nat → RiskMap
  | 0 => m
  | k + 1 => propagateRiskToNeighbors env (propagateOnePass env m grid_size) grid_size k

/-- risk_service.py `RiskService._sync_recalculate_risk_map_logic`:
initialize, apply each hazard, propagate once, refresh risk levels.
Reads the grid size, hazards and grid passability of `env` but never its
`current_risk_map`. -/
def recalculateRiskMapLogic (env : EnvState) : RiskMap :=
  let m0 := initRiskMap env.grid_size
  let m1 := env.hazards.foldl (fun m h => applyHazardRisk h m env.grid_size) m0
  let m2 := propagateRiskToNeighbors env m1 env.grid_size 1
  fun c => (m2 c).map (fun nr => { nr with risk_level := getRiskLevel nr.total_risk })

/-- risk_service.py `RiskService.recalculate_risk_map`: compute the map
and store it in the environment (`env.update_risk_map`). -/
def recalculateRiskMap (env : EnvState) : RiskMap × EnvState :=
  let m := recalculateRiskMapLogic env
  (m, { env with current_risk_map := m })

/-- models.py `PrioritizationConfig` (weights and severity scores). -/
structure PrioritizationConfig where
  severity_weight : ℚ
  time_sensitivity_weight : ℚ
  accessibility_risk_weight : ℚ
  num_agents_available_weight : ℚ
  severity_critical_score : ℚ
  severity_severe_score : ℚ
  severity_moderate_score : ℚ
  severity_mild_score : ℚ
deriving DecidableEq, Repr

/-- config.py defaults for the prioritization weights and severity scores. -/
def defaultPrioritizationConfig : PrioritizationConfig :=
  { severity_weight := 4/10
    time_sensitivity_weight := 3/10
    accessibility_risk_weight := 2/10
    num_agents_available_weight := 1/10
    severity_critical_score := 1
    severity_severe_score := 3/4
    severity_moderate_score := 1/2
    severity_mild_score := 1/4 }

/-- prioritization_service.py `PrioritizationService._get_severity_score`. -/
def getSeverityScore (cfg : PrioritizationConfig) : InjurySeverity → ℚ
  | .critical => cfg.severity_critical_score
  | .severe => cfg.severity_severe_score
  | .moderate => cfg.severity_moderate_score
  | .mild => cfg.severity_mild_score

/-- The per-victim score assignment of
`PrioritizationService._sync_prioritize_victims`: a rescued victim's
score is set to 0; otherwise the weighted combination of severity, time
sensitivity, accessibility and agent availability, clamped to [0, 1]. -/
def computePriorityScore (cfg : PrioritizationConfig) (env : EnvState)
    (v : Victim) : Victim :=
  if v.is_rescued then { v with priority_score := 0 }
  else
    let severity_score := getSeverityScore cfg v.injury_severity
    let time_remaining : Int :=
      (v.estimated_survival_window_minutes : Int) - (v.time_since_incident_minutes : Int)
    let time_sensitivity_score : ℚ :=
      if 0 < time_remaining then pyMax 0 (pyMin 1 (1 - (time_remaining : ℚ) / 360)) else 0
    let accessibility_risk_val : ℚ :=
      match env.get_risk_at_coordinate v.location with
      | some nr => nr.total_risk
      | none => 0
    let accessibility_score := 1 - accessibility_risk_val
    let agent_availability_factor : ℚ := 0
    let total_weighted_score :=
      cfg.severity_weight * severity_score
        + cfg.time_sensitivity_weight * time_sensitivity_score
        + cfg.accessibility_risk_weight * accessibility_score
        + cfg.num_agents_available_weight * agent_availability_factor
    { v with priority_score := pyMin 1 (pyMax 0 total_weighted_score) }

/-- Python's stable `list.sort(key=..., reverse=True)` on priority scores:
descending order, equal scores keep their relative position. -/
def sortByPriorityDesc (l : List Victim) : List Victim :=
  l.mergeSort (fun a b => b.priority_score ≤ a.priority_score)

/-- prioritization_service.py
`PrioritizationService._sync_prioritize_victims`: assign every victim its
priority score, then stable-sort descending by score. -/
def prioritizeVictims (cfg : PrioritizationConfig) (env : EnvState)
    (victims : List Victim) : List Victim :=
  match victims with
  | [] => []
  | _ => sortByPriorityDesc (victims.map (computePriorityScore cfg env))

/-- The inner agent loop of `AgentService._perform_task_allocation`:
the capable agent at minimal Manhattan distance to the victim, earliest
in the list on ties (`distance < min_distance` is strict). -/
def bestAgentFor (v : Victim) (agents : List Agent) : Option Agent :=
  agents.foldl (fun best a =>
    match best with
    | none => some a
    | some b =>
        if manhattan a.current_location v.location
            < manhattan b.current_location v.location then some a else b) none

/-- The victim loop of `AgentService._perform_task_allocation`: skip
rescued or already-assigned victims, bind the nearest capable agent,
emit its `AgentTask`, and retire the agent for this cycle.  A Pydantic
ValidationError on task construction aborts the allocation
(`estimated_time_seconds = int(min_distance * 10)` is 0 when the agent
stands on the victim's cell, violating `PositiveInt`). -/
def allocateLoop : List Victim → List Agent → List (Nat × AgentTask) →
    Except String (List (Nat × AgentTask))
  | [], _, acc => .ok acc
  | v :: rest, capable, acc =>
    if v.is_rescued || v.assigned_agent_id.isSome then
      allocateLoop rest capable acc
    else
      match bestAgentFor v capable with
      | none => allocateLoop rest capable acc
      | some best =>
        let min_distance := manhattan best.current_location v.location
        match mkAgentTask "rescue_victim" (some v.location) (some v.id) []
            v.accessibility_risk (Int.ofNat (min_distance * 10)) with
        | none => .error "ValidationError: estimated_time_seconds must be a positive integer"
        | some task => allocateLoop rest (capable.erase best) (acc ++ [(best.id, task)])

/-- agent_service.py `AgentService._perform_task_allocation`, returning
the (agent id, task) bindings it emits. -/
def performTaskAllocation (available_agents : List Agent)
    (victims_to_rescue : List Victim) : Except String (List (Nat × AgentTask)) :=
  let extract_capable_agents :=
    available_agents.filter (fun a => a.capabilities.contains .extract_victims)
  if extract_capable_agents.isEmpty then .ok []
  else allocateLoop victims_to_rescue extract_capable_agents []

/-- environment_service.py `EnvironmentService.update_victim_status` on
one victim: set the new status, and mark the victim rescued when the new
status is `safe`. -/
def updateVictimStatus (v : Victim) (new_status : VictimStatus) : Victim :=
  let v' := { v with status := new_status }
  if new_status = .safe then { v' with is_rescued := true } else v'

/-- mission_service.py `run_simulation_step`, `"rescue"` action branch:
set `victim.is_rescued = True` and free the agent (`status = IDLE`).
The victim's `status` field is not touched. -/
def applyRescueStep (v : Victim) (a : Agent) : Victim × Agent :=
  ({ v with is_rescued := true }, { a with status := .idle })

/-- The §3 data-model invariant on victims: `is_rescued ⇒ status = safe`. -/
def rescuedInvariant (v : Victim) : Prop :=
  v.is_rescued = true → v.status = .safe

/-- An open-set entry `(f_score, g_score, coordinate)` of
planner_service.py `_sync_a_star_search`. -/
abbrev HeapEntry := ℚ × ℚ × Coordinate

/-- Python's tuple `<` on heap entries: compare `f`, then `g`, then the
coordinate via `Coordinate.__lt__` (lexicographic on (x, y)). -/
def entryLt (a b : HeapEntry) : Bool :=
  if a.1 < b.1 then true
  else if a.1 = b.1 then
    if a.2.1 < b.2.1 then true
    else if a.2.1 = b.2.1 then a.2.2.pyLt b.2.2
    else false
  else false

/-- `heapq.heappop`: remove and return a minimal entry of the multiset
under tuple order.  Distinct live entries never compare fully equal (a
coordinate's `g` strictly decreases on re-push), so taking the leftmost
minimum is observationally the heap's choice. -/
def popMin : List HeapEntry → Option (HeapEntry × List HeapEntry)
  | [] => none
  | e :: rest =>
    let m := rest.foldl (fun acc x => if entryLt x acc then x else acc) e
    some (m, (e :: rest).erase m)

/-- planner_service.py `PlannerService._sync_heuristic`: Manhattan
distance, plus `100 · accumulated_risk` for the `minimize_risk_exposure`
objective. -/
def syncHeuristic (current goal : Coordinate) (planning_objective : String)
    (accumulated_risk : ℚ) : ℚ :=
  let h_cost : ℚ := (manhattan current goal : ℚ)
  if planning_objective = "minimize_risk_exposure" then h_cost + accumulated_risk * 100
  else h_cost

/-- The mutable state of `_sync_a_star_search`: the open set (as the
multiset of pushed, not-yet-popped entries) and the four dicts. -/
structure AStarState where
  openSet : List HeapEntry
  cameFrom : Coordinate → Option Coordinate
  gScore : Coordinate → Option ℚ
  riskScore : Coordinate → Option ℚ
  fScore : Coordinate → Option ℚ

/-- The neighbor-relaxation body of the `_sync_a_star_search` loop: skip
missing or impassable nodes; compute the tentative g-score and the new
accumulated risk; if the neighbor is unseen or strictly improved, update
all four dicts and push it.  (A missing `g_score`/`risk_score` for the
popped node would be a Python KeyError; it is provably present.) -/
def expandNeighbor (env : EnvState) (goal : Coordinate) (obj : String)
    (cur : Coordinate) (st : AStarState) (neighbor : Coordinate) : AStarState :=
  match env.get_grid_node neighbor with
  | none => st
  | some node =>
    if !node.is_passable then st
    else
      match st.gScore cur, st.riskScore cur with
      | some gcur, some rcur =>
        let tentative_g_score := gcur + 1
        let current_node_risk_val : ℚ :=
          match env.get_risk_at_coordinate neighbor with
          | some nr => nr.total_risk
          | none => 0
        let new_risk_accumulator := pyMin 1 (rcur + current_node_risk_val)
        let relax : Bool :=
          match st.gScore neighbor with
          | none => true
          | some gn => tentative_g_score < gn
        if relax then
          let fval := tentative_g_score + syncHeuristic neighbor goal obj new_risk_accumulator
          { openSet := st.openSet ++ [(fval, tentative_g_score, neighbor)]
            cameFrom := fun c => if c = neighbor then some cur else st.cameFrom c
            gScore := fun c => if c = neighbor then some tentative_g_score else st.gScore c
            riskScore := fun c => if c = neighbor then some new_risk_accumulator else st.riskScore c
            fScore := fun c => if c = neighbor then some fval else st.fScore c }
        else st
      | _, _ => st

/-- planner_service.py `PlannerService._reconstruct_path`: follow the
back-pointers from `current` and return the chain reversed
(start-to-goal).  `none` models non-termination of the source's `while`
loop when the fuel runs out. -/
def reconstructPath (cameFrom : Coordinate → Option Coordinate) :
    Nat → Coordinate → Option (List Coordinate)
  | 0, _ => none
  | fuel + 1, current =>
    match cameFrom current with
    | none => some [current]
    | some prev => (reconstructPath cameFrom fuel prev).map (· ++ [current])

/-- The `while open_set:` loop of `_sync_a_star_search`.  `recon_fuel`
bounds the path reconstruction; `none` is returned when the open set
empties (source: no path) or the fuel runs out. -/
def aStarLoop (env : EnvState) (goal : Coordinate) (obj : String)
    (recon_fuel : Nat) : Nat → AStarState → Option (List Coordinate × ℚ × ℚ)
  | 0, _ => none
  | fuel + 1, st =>
    match popMin st.openSet with
    | none => none
    | some (e, rest) =>
      let current_coord := e.2.2
      if current_coord = goal then
        match reconstructPath st.cameFrom recon_fuel current_coord,
            st.gScore current_coord, st.riskScore current_coord with
        | some path, some gv, some rv => some (path, gv, rv)
        | _, _, _ => none
      else
        let st' := (env.get_neighbors current_coord).foldl
          (expandNeighbor env goal obj current_coord) { st with openSet := rest }
        aStarLoop env goal obj recon_fuel fuel st'

/-- The initial state of `_sync_a_star_search`: the start entry
`(0.0, 0.0, start)` is pushed and all four dicts are seeded at `start`. -/
def aStarInitState (start goal : Coordinate) (obj : String) : AStarState :=
  { openSet := [(0, 0, start)]
    cameFrom := fun _ => none
    gScore := fun c => if c = start then some 0 else none
    riskScore := fun c => if c = start then some 0 else none
    fScore := fun c => if c = start then some (syncHeuristic start goal obj 0) else none }

/-- planner_service.py `PlannerService._sync_a_star_search`: seed the
state and run the loop.  Returns the path, `g_score[goal]` and
`risk_score[goal]` on success. -/
def aStarSearch (env : EnvState) (start goal : Coordinate) (obj : String)
    (fuel : Nat) : Option (List Coordinate × ℚ × ℚ) :=
  aStarLoop env goal obj fuel fuel (aStarInitState start goal obj)

/-- models.py `AgentPlan` (`total_estimated_time_seconds` is a
`PositiveInt`; `mkAgentPlan` performs the construction validation). -/
structure AgentPlan where
  agent_id : Nat
  tasks : List AgentTask
  total_estimated_time_seconds : Int
  total_expected_risk : ℚ
deriving DecidableEq, Repr

/-- Pydantic validation for `AgentPlan` construction. -/
def mkAgentPlan (aid : Nat) (tasks : List AgentTask) (secs : Int) (risk : ℚ) :
    Option AgentPlan :=
  if secs ≤ 0 then none
  else if risk < 0 ∨ 1 < risk then none
  else some ⟨aid, tasks, secs, risk⟩

/-- planner_service.py `PlannerService.generate_agent_plan`: run the A*
search; on success overwrite the task's path, risk and time fields (plain
attribute assignment, not re-validated) and build the validated
`AgentPlan`.  `.ok none` is "no path found"; `.error` is a raised
ValidationError. -/
def generateAgentPlan (env : EnvState) (agent : Agent) (target_task : AgentTask)
    (planning_objective : String) (fuel : Nat) : Except String (Option AgentPlan) :=
  match target_task.target_location with
  | none => .ok none
  | some goal =>
    match aStarSearch env agent.current_location goal planning_objective fuel with
    | none => .ok none
    | some (path, total_cost, total_risk) =>
      if path.isEmpty then .ok none
      else
        let task := { target_task with
          path_to_target := path
          expected_risk_exposure := total_risk
          estimated_time_seconds := total_cost.floor }
        match mkAgentPlan agent.id [task] total_cost.floor total_risk with
        | none => .error "ValidationError: AgentPlan"
        | some plan => .ok (some plan)

/-- models.py `Mission` (the fields the orchestrator reads). -/
structure Mission where
  id : Nat
  status : MissionStatus
deriving DecidableEq, Repr

/-- models.py `Plan` (identifier and timestamp fields, which come from
`uuid4()`/wall-clock outside the core, are omitted). -/
structure Plan where
  agent_plans : List AgentPlan
  victims_to_rescue_order : List Nat
  overall_risk_score : ℚ
  overall_efficiency_score : ℚ
deriving DecidableEq, Repr

/-- A mission's registry entry (mission_service.py `mission_data`). -/
structure MissionData where
  mission : Mission
  env : EnvState
  agents : List Agent
  current_plan : Option Plan

/-- An HTTP-mapped error (`fastapi.HTTPException` / `ADRIEException`). -/
structure HTTPError where
  status_code : Nat
  detail : String
deriving DecidableEq, Repr

/-- The per-binding loop of `generate_mission_plan`: generate each
agent's plan, accumulate totals, and mark planned agents `moving`. -/
def planBindings (env : EnvState) (objective : String) (fuel : Nat) :
    List (Nat × AgentTask) → List Agent → List AgentPlan →
    Except HTTPError (List AgentPlan × List Agent)
  | [], agents, acc => .ok (acc, agents)
  | (agent_id, task) :: rest, agents, acc =>
    match agents.find? (fun a => a.id = agent_id) with
    | none => planBindings env objective fuel rest agents acc
    | some current_agent =>
      match generateAgentPlan env current_agent task objective fuel with
      | .error e => .error ⟨500, e⟩
      | .ok none => planBindings env objective fuel rest agents acc
      | .ok (some agent_plan) =>
        let agents' := agents.map (fun a =>
          if a.id = agent_id then { a with status := .moving } else a)
        planBindings env objective fuel rest agents' (acc ++ [agent_plan])

/-- mission_service.py `MissionService.generate_mission_plan`: reject any
mission not `in_progress`/`pending` with an HTTP 400 before touching any
state; otherwise optionally recompute the risk field, prioritize the
un-rescued victims, allocate, plan each binding, aggregate, and store the
plan in the mission data. -/
def generateMissionPlan (md : MissionData) (objective : String) (replan : Bool)
    (fuel : Nat) : Except HTTPError (Plan × MissionData) :=
  if md.mission.status ≠ .in_progress ∧ md.mission.status ≠ .pending then
    .error ⟨400, "Cannot plan for mission in its current status."⟩
  else
    let md := if replan then { md with env := (recalculateRiskMap md.env).2 } else md
    let victims_to_prioritize := md.env.victims.filter (fun v => !v.is_rescued)
    let prioritized_victims :=
      prioritizeVictims defaultPrioritizationConfig md.env victims_to_prioritize
    let victims_prioritized_order := prioritized_victims.map (·.id)
    let available_agents := md.agents.filter (fun a => a.status = .idle)
    match performTaskAllocation available_agents prioritized_victims with
    | .error e => .error ⟨500, e⟩
    | .ok bindings =>
      match planBindings md.env objective fuel bindings md.agents [] with
      | .error e => .error e
      | .ok (all_agent_plans, agents') =>
        let n := all_agent_plans.length
        let overall_plan_risk := (all_agent_plans.map (·.total_expected_risk)).sum
        let overall_plan_time := (all_agent_plans.map (·.total_estimated_time_seconds)).sum
        let avg_risk : ℚ := if n ≠ 0 then overall_plan_risk / n else 0
        let avg_time : ℚ := if n ≠ 0 then (overall_plan_time : ℚ) / n else 0
        let overall_efficiency_score : ℚ :=
          if 0 < avg_time + avg_risk * 100 then 1 / (avg_time + avg_risk * 100) else 0
        let rescue_plan : Plan :=
          { agent_plans := all_agent_plans
            victims_to_rescue_order := victims_prioritized_order
            overall_risk_score := avg_risk
            overall_efficiency_score := overall_efficiency_score }
        .ok (rescue_plan, { md with agents := agents', current_plan := some rescue_plan })

/-! Concrete instances used by witnesses and counterexamples. -/

/-- A 2 × 2 environment, fully passable, no hazards, empty risk map. -/
def env2 : EnvState :=
  { grid_size := 2
    grid := fun c => if c.x < 2 && c.y < 2 then some ⟨c, true, 0⟩ else none
    hazards := []
    victims := []
    current_risk_map := fun _ => none }

/-- A 1 × 1 environment whose single cell is impassable. -/
def envBad : EnvState :=
  { grid_size := 1
    grid := fun c => if c.x = 0 && c.y = 0 then some ⟨c, false, 0⟩ else none
    hazards := []
    victims := []
    current_risk_map := fun _ => none }

/-- A fire hazard of intensity 1 and radius 1 at (1, 1). -/
def hz : Hazard := ⟨1, .fire, ⟨1, 1⟩, 1, 1, true, 1⟩

/-- A 3 × 3 environment, fully passable, with the single hazard `hz`. -/
def env3 : EnvState :=
  { grid_size := 3
    grid := fun c => if c.x < 3 && c.y < 3 then some ⟨c, true, 0⟩ else none
    hazards := [hz]
    victims := []
    current_risk_map := fun _ => none }

/-- An idle extraction-capable agent standing at the origin. -/
def agentAtOrigin : Agent :=
  ⟨7, "Agent-0007", ⟨0, 0⟩, .idle, [.search_victims, .extract_victims], none⟩

/-- An unassigned trapped victim at the origin (same cell as `agentAtOrigin`). -/
def victimAtOrigin : Victim :=
  ⟨3, ⟨0, 0⟩, .mild, 10, 100, .trapped, 1/2, 0, false, none⟩

/-- A trapped, not yet rescued victim. -/
def victimTrapped : Victim :=
  ⟨1, ⟨0, 0⟩, .moderate, 30, 120, .trapped, 1/2, 0, false, none⟩

/-- A moving agent assigned to `victimTrapped`. -/
def agentMoving : Agent :=
  ⟨2, "Agent-0002", ⟨1, 0⟩, .moving, [.search_victims, .extract_victims], some 1⟩

/-- Mission data for a mission already in `completed` status. -/
def mdCompleted : MissionData :=
  { mission := ⟨9, .completed⟩
    env := env2
    agents := []
    current_plan := none }

/-- The strict heap-entry order as a proposition: `f`, then `g`, then the
coordinate lexicographically by `(x, y)`. -/
def entryLtP (a b : HeapEntry) : Prop :=
  a.1 < b.1 ∨ (a.1 = b.1 ∧ (a.2.1 < b.2.1 ∨ (a.2.1 = b.2.1 ∧
    (a.2.2.x < b.2.2.x ∨ (a.2.2.x = b.2.2.x ∧ a.2.2.y < b.2.2.y)))))

/-- The reflexive heap-entry order: smaller `f`, then smaller `g`, then
lexicographically smaller-or-equal coordinate. -/
def entryLeP (a b : HeapEntry) : Prop :=
  a.1 < b.1 ∨ (a.1 = b.1 ∧ (a.2.1 < b.2.1 ∨ (a.2.1 = b.2.1 ∧
    (a.2.2.x < b.2.2.x ∨ (a.2.2.x = b.2.2.x ∧ a.2.2.y ≤ b.2.2.y)))))

/-- Two queued entries with equal `f` and equal `g`: the first pushed has
the lexicographically larger coordinate (5, 5), the second (0, 0). -/
def qTie : List HeapEntry := [(1, 0, ⟨5, 5⟩), (1, 0, ⟨0, 0⟩)]

/-- Loop invariant of the A* search: the start's g-score is 0 and never
relaxed; g-scores are non-negative; every back-pointer `came_from[n] = p`
records a strictly cheaper neighbor predecessor (`g[p] + 1 ≤ g[n]`, with
`n` among `p`'s passable in-bounds neighbors); and every node with a
g-score other than the start has a back-pointer. -/
structure AStarInv (env : EnvState) (start : Coordinate) (st : AStarState) : Prop where
  g_start : st.gScore start = some 0
  g_nonneg : ∀ c q, st.gScore c = some q → 0 ≤ q
  cf_spec : ∀ n p, st.cameFrom n = some p → ∃ gn gp, st.gScore n = some gn ∧
    st.gScore p = some gp ∧ gp + 1 ≤ gn ∧ n ∈ env.get_neighbors p
  g_dom : ∀ c, (st.gScore c).isSome = true → c = start ∨ (st.cameFrom c).isSome = true

end Adrie

namespace Adrie

/-- C8. The risk-field recompute is a deterministic function of the grid
and hazards: it never reads `current_risk_map`, so recomputing on the
environment that already stores the first result yields the same risk map
cell for cell (same `total_risk`, `dominant_hazard` and `risk_level` at
every coordinate). -/
theorem recalculateRiskMap_idempotent (env : EnvState) :
    ∀ c : Coordinate,
      (recalculateRiskMap (recalculateRiskMap env).2).1 c = (recalculateRiskMap env).1 c :=
  fun _ => rfl

/-- C4 (code bug). The `"rescue"` branch of
mission_service.py `run_simulation_step` sets `is_rescued = True` without
setting the victim's status to `safe`: applied to a trapped victim it
leaves `is_rescued = true` with `status = trapped`, violating the §3
invariant `is_rescued ⇒ status = safe`. -/
theorem rescue_step_breaks_rescued_invariant :
    (applyRescueStep victimTrapped agentMoving).1.is_rescued = true ∧
    (applyRescueStep victimTrapped agentMoving).1.status = VictimStatus.trapped ∧
    ¬ rescuedInvariant (applyRescueStep victimTrapped agentMoving).1 :=
  ⟨rfl, rfl, fun hinv => absurd (hinv rfl) (by decide)⟩

/-- C1 (code bug). The allocator computes
`estimated_time_seconds = int(min_distance * 10)` with no `max(1, ·)`
clamp; when the chosen agent already stands on the victim's cell
(Manhattan distance 0) this is 0 and `AgentTask`'s `PositiveInt`
validation raises, aborting the allocation instead of emitting a task
with `estimated_time_seconds = 1`. -/
theorem allocation_zero_distance_validation_error :
    manhattan agentAtOrigin.current_location victimAtOrigin.location = 0 ∧
    performTaskAllocation [agentAtOrigin] [victimAtOrigin] =
      Except.error "ValidationError: estimated_time_seconds must be a positive integer" :=
  ⟨rfl, rfl⟩

/-- C9. `generate_mission_plan` rejects any mission whose status is
`completed`, `failed` or `cancelled` with an HTTP 400 error raised before
any state is touched, so no new plan is stored. -/
theorem generateMissionPlan_rejects_terminal_status (md : MissionData)
    (objective : String) (replan : Bool) (fuel : Nat)
    (h : md.mission.status = .completed ∨ md.mission.status = .failed ∨
      md.mission.status = .cancelled) :
    generateMissionPlan md objective replan fuel =
      Except.error ⟨400, "Cannot plan for mission in its current status."⟩ := by
  have hcond : md.mission.status ≠ .in_progress ∧ md.mission.status ≠ .pending := by
    rcases h with h | h | h <;> rw [h] <;> exact ⟨by decide, by decide⟩
  unfold generateMissionPlan
  rw [if_pos hcond]

/-- C9 witness: a concrete completed mission is rejected with HTTP 400. -/
theorem generateMissionPlan_rejects_terminal_status_witness :
    generateMissionPlan mdCompleted "minimize_time" false 5 =
      Except.error ⟨400, "Cannot plan for mission in its current status."⟩ :=
  generateMissionPlan_rejects_terminal_status mdCompleted "minimize_time" false 5
    (Or.inl rfl)

theorem entryLt_iff_entryLtP (a b : HeapEntry) : entryLt a b = true ↔ entryLtP a b := by
  unfold entryLt entryLtP Coordinate.pyLt
  split_ifs <;> simp_all

theorem entryLtP_trans {a b c : HeapEntry} (hab : entryLtP a b) (hbc : entryLtP b c) :
    entryLtP a c := by
  unfold entryLtP at *
  rcases hab with h | ⟨hf, hab⟩
  · rcases hbc with h' | ⟨hf', _⟩
    · exact Or.inl (lt_trans h h')
    · exact Or.inl (hf' ▸ h)
  · rcases hbc with h' | ⟨hf', hbc⟩
    · exact Or.inl (hf ▸ h')
    · refine Or.inr ⟨hf.trans hf', ?_⟩
      rcases hab with h | ⟨hg, hab⟩
      · rcases hbc with h' | ⟨hg', _⟩
        · exact Or.inl (lt_trans h h')
        · exact Or.inl (hg' ▸ h)
      · rcases hbc with h' | ⟨hg', hbc⟩
        · exact Or.inl (hg ▸ h')
        · exact Or.inr ⟨hg.trans hg', by omega⟩

theorem eq_or_entryLtP_of_not (a b : HeapEntry) (h : ¬ entryLtP b a) :
    a = b ∨ entryLtP a b := by
  unfold entryLtP at *
  rcases lt_trichotomy a.1 b.1 with hf | hf | hf
  · exact Or.inr (Or.inl hf)
  · rcases lt_trichotomy a.2.1 b.2.1 with hg | hg | hg
    · exact Or.inr (Or.inr ⟨hf, Or.inl hg⟩)
    · rcases Nat.lt_trichotomy a.2.2.x b.2.2.x with hx | hx | hx
      · exact Or.inr (Or.inr ⟨hf, Or.inr ⟨hg, Or.inl hx⟩⟩)
      · rcases Nat.lt_trichotomy a.2.2.y b.2.2.y with hy | hy | hy
        · exact Or.inr (Or.inr ⟨hf, Or.inr ⟨hg, Or.inr ⟨hx, hy⟩⟩⟩)
        · left
          rcases a with ⟨af, ag, ⟨ax, ay⟩⟩
          rcases b with ⟨bf, bg, ⟨bx, byy⟩⟩
          simp only at hf hg hx hy
          simp [hf, hg, hx, hy, Prod.ext_iff]
        · exact absurd (Or.inr ⟨hf.symm, Or.inr ⟨hg.symm, Or.inr ⟨hx.symm, hy⟩⟩⟩) h
      · exact absurd (Or.inr ⟨hf.symm, Or.inr ⟨hg.symm, Or.inl hx⟩⟩) h
    · exact absurd (Or.inr ⟨hf.symm, Or.inl hg⟩) h
  · exact absurd (Or.inl hf) h

theorem entryLtP_irrefl (a : HeapEntry) : ¬ entryLtP a a := by
  unfold entryLtP
  rintro (h | ⟨-, h | ⟨-, h | ⟨-, h⟩⟩⟩)
  · exact lt_irrefl _ h
  · exact lt_irrefl _ h
  · omega
  · omega

theorem entryLeP_of_entryLtP {a b : HeapEntry} (h : entryLtP a b) : entryLeP a b := by
  unfold entryLtP at h
  unfold entryLeP
  rcases h with h | ⟨h1, h | ⟨h2, h | ⟨h3, h4⟩⟩⟩
  · exact Or.inl h
  · exact Or.inr ⟨h1, Or.inl h⟩
  · exact Or.inr ⟨h1, Or.inr ⟨h2, Or.inl h⟩⟩
  · exact Or.inr ⟨h1, Or.inr ⟨h2, Or.inr ⟨h3, le_of_lt h4⟩⟩⟩

theorem entryLeP_refl (a : HeapEntry) : entryLeP a a := by
  unfold entryLeP
  exact Or.inr ⟨rfl, Or.inr ⟨rfl, Or.inr ⟨rfl, le_refl _⟩⟩⟩

theorem foldl_min_mem (l : List HeapEntry) (a : HeapEntry) :
    l.foldl (fun acc x => if entryLt x acc then x else acc) a = a ∨
    l.foldl (fun acc x => if entryLt x acc then x else acc) a ∈ l := by
  induction l generalizing a with
  | nil => exact Or.inl rfl
  | cons y t ih =>
    simp only [List.foldl_cons]
    rcases ih (if entryLt y a then y else a) with h | h
    · rw [h]
      split_ifs with hy
      · exact Or.inr (List.mem_cons_self _ _)
      · exact Or.inl rfl
    · exact Or.inr (List.mem_cons_of_mem _ h)

theorem foldl_min_not_lt (l : List HeapEntry) (a : HeapEntry) :
    ∀ x, (x = a ∨ x ∈ l) →
      ¬ entryLtP x (l.foldl (fun acc y => if entryLt y acc then y else acc) a) := by
  induction l generalizing a with
  | nil =>
    intro x hx hlt
    rcases hx with rfl | h
    · exact entryLtP_irrefl x hlt
    · exact absurd h (List.not_mem_nil x)
  | cons y t ih =>
    intro x hx hlt
    simp only [List.foldl_cons] at hlt
    rcases hx with rfl | hx
    · by_cases hy : entryLt y x
      · have hya : entryLtP y x := (entryLt_iff_entryLtP y x).1 hy
        have hym : entryLtP y (t.foldl (fun acc y => if entryLt y acc then y else acc)
            (if entryLt y x then y else x)) := entryLtP_trans hya hlt
        exact ih (if entryLt y x then y else x) y (Or.inl (by rw [if_pos hy])) hym
      · exact ih (if entryLt y x then y else x) x (Or.inl (by rw [if_neg hy])) hlt
    · rcases List.mem_cons.mp hx with rfl | hx
      · by_cases hy : entryLt x a
        · exact ih (if entryLt x a then x else a) x (Or.inl (by rw [if_pos hy])) hlt
        · have hny : ¬ entryLtP x a := fun hp => hy ((entryLt_iff_entryLtP x a).2 hp)
          rcases eq_or_entryLtP_of_not a x hny with heq | hax
          · subst heq
            exact ih (if entryLt a a then a else a) a
              (Or.inl (by rw [if_neg hy])) hlt
          · have ham : entryLtP a (t.foldl (fun acc y => if entryLt y acc then y else acc)
                (if entryLt x a then x else a)) := entryLtP_trans hax hlt
            exact ih (if entryLt x a then x else a) a (Or.inl (by rw [if_neg hy])) ham
      · exact ih (if entryLt y a then y else a) x (Or.inr hx) hlt

/-- C5 (amended). `heappop` on the open set returns an entry of the queue
that is minimal under the order "smaller `f`, ties by smaller `g`,
remaining ties by lexicographic `(x, y)` coordinate order" — insertion
order plays no role (only fully identical entries tie completely). -/
theorem popMin_is_min (q : List HeapEntry) (e : HeapEntry) (rest : List HeapEntry)
    (h : popMin q = some (e, rest)) :
    e ∈ q ∧ ∀ x ∈ q, entryLeP e x := by
  match q with
  | [] => exact absurd h (by simp [popMin])
  | y :: t =>
    unfold popMin at h
    simp only [Option.some.injEq, Prod.mk.injEq] at h
    obtain ⟨he, -⟩ := h
    subst he
    constructor
    · rcases foldl_min_mem t y with h | h
      · rw [h]; exact List.mem_cons_self _ _
      · exact List.mem_cons_of_mem _ h
    · intro x hx
      have hnot : ¬ entryLtP x
          (t.foldl (fun acc y => if entryLt y acc then y else acc) y) :=
        foldl_min_not_lt t y x (by
          rcases List.mem_cons.mp hx with rfl | hx
          · exact Or.inl rfl
          · exact Or.inr hx)
      rcases eq_or_entryLtP_of_not
          (t.foldl (fun acc y => if entryLt y acc then y else acc) y) x hnot with heq | hlt
      · rw [heq]; exact entryLeP_refl x
      · exact entryLeP_of_entryLtP hlt

/-- C5 witness: popping the concrete two-entry queue `qTie` returns an
entry of the queue that is minimal in the (f, g, coordinate) order. -/
theorem popMin_is_min_witness :
    (1, 0, (⟨0, 0⟩ : Coordinate)) ∈ qTie ∧
    ∀ x ∈ qTie, entryLeP (1, 0, (⟨0, 0⟩ : Coordinate)) x :=
  popMin_is_min qTie (1, 0, ⟨0, 0⟩) [(1, 0, ⟨5, 5⟩)] (by decide)

/-- C5 counterexample. With two queued entries of equal `f` and equal
`g`, the pop returns the entry with the lexicographically smaller
coordinate — here the one pushed second — refuting the claim that such
ties are broken by insertion order into the queue. -/
theorem popMin_tie_not_insertion_order :
    popMin qTie = some ((1, 0, ⟨0, 0⟩), [(1, 0, ⟨5, 5⟩)]) ∧
    qTie.head? = some (1, 0, ⟨5, 5⟩) ∧
    ((⟨0, 0⟩ : Coordinate) ≠ ⟨5, 5⟩) := by
  refine ⟨by decide, by decide, by decide⟩

theorem priorityDescLe_trans (a b c : Victim)
    (hab : (b.priority_score ≤ a.priority_score : Bool) = true)
    (hbc : (c.priority_score ≤ b.priority_score : Bool) = true) :
    (c.priority_score ≤ a.priority_score : Bool) = true := by
  simp only [decide_eq_true_iff] at *
  exact le_trans hbc hab

theorem priorityDescLe_total (a b : Victim) :
    ((b.priority_score ≤ a.priority_score : Bool) ||
      (a.priority_score ≤ b.priority_score : Bool)) = true := by
  rcases le_total b.priority_score a.priority_score with h | h <;> simp [h]

theorem computePriorityScore_rescued (cfg : PrioritizationConfig) (env : EnvState)
    (u : Victim) (h : (computePriorityScore cfg env u).is_rescued = true) :
    (computePriorityScore cfg env u).priority_score = 0 := by
  unfold computePriorityScore
  by_cases hu : u.is_rescued <;> unfold computePriorityScore at h <;> simp [hu] at h ⊢

/-- C7. The prioritizer's output is a permutation of its (score-assigned)
input, sorted by `priority_score` in non-increasing order; the sort is
stable (victims with any given score keep their relative input order);
and every rescued victim is assigned `priority_score` exactly 0. -/
theorem prioritizeVictims_sorted_stable_perm (cfg : PrioritizationConfig)
    (env : EnvState) (victims : List Victim) :
    (prioritizeVictims cfg env victims).Perm
      (victims.map (computePriorityScore cfg env)) ∧
    (prioritizeVictims cfg env victims).Pairwise
      (fun a b => b.priority_score ≤ a.priority_score) ∧
    (∀ q : ℚ, (prioritizeVictims cfg env victims).filter
        (fun v => v.priority_score = q) =
      (victims.map (computePriorityScore cfg env)).filter
        (fun v => v.priority_score = q)) ∧
    (∀ v ∈ prioritizeVictims cfg env victims, v.is_rescued = true →
      v.priority_score = 0) := by
  match victims with
  | [] => simp [prioritizeVictims]
  | w :: ws =>
    set scored := (w :: ws).map (computePriorityScore cfg env) with hscored
    have hout : prioritizeVictims cfg env (w :: ws) =
        scored.mergeSort (fun a b => b.priority_score ≤ a.priority_score) := rfl
    refine ⟨?_, ?_, ?_, ?_⟩
    · rw [hout]; exact List.mergeSort_perm scored _
    · rw [hout]
      have hp := @List.sorted_mergeSort Victim
        (fun a b : Victim => (b.priority_score ≤ a.priority_score : Bool))
        priorityDescLe_trans priorityDescLe_total scored
      exact hp.imp (fun h => by simpa using h)
    · intro q
      rw [hout]
      set p : Victim → Bool := fun v => v.priority_score = q with hp
      set c := scored.filter p with hc
      have hsub : c.Sublist
          (scored.mergeSort (fun a b => b.priority_score ≤ a.priority_score)) := by
        refine List.sublist_mergeSort priorityDescLe_trans priorityDescLe_total ?_
          (List.filter_sublist scored)
        refine List.pairwise_of_forall_mem_list ?_
        intro a ha b hb
        have ha' := (List.mem_filter.mp ha).2
        have hb' := (List.mem_filter.mp hb).2
        simp only [hp, decide_eq_true_iff] at ha' hb'
        simp [ha', hb']
      have hsub2 : c.Sublist
          ((scored.mergeSort (fun a b => b.priority_score ≤ a.priority_score)).filter p) := by
        have := List.Sublist.filter p hsub
        rwa [List.filter_eq_self.mpr (fun a ha => (List.mem_filter.mp ha).2)] at this
      have hlen : ((scored.mergeSort
          (fun a b => b.priority_score ≤ a.priority_score)).filter p).length = c.length := by
        have hperm := (List.mergeSort_perm scored
          (fun a b => b.priority_score ≤ a.priority_score)).filter p
        exact hperm.length_eq
      exact (hsub2.eq_of_length hlen.symm).symm
    · intro v hv hres
      rw [hout, List.mem_mergeSort] at hv
      obtain ⟨u, -, rfl⟩ := List.mem_map.mp hv
      exact computePriorityScore_rescued cfg env u hres

theorem inBoundsInt_iff (n : Nat) (mx my : Int) :
    inBoundsInt n mx my = true ↔ 0 ≤ mx ∧ mx < (n : Int) ∧ 0 ≤ my ∧ my < (n : Int) := by
  unfold inBoundsInt
  simp only [Bool.and_eq_true, decide_eq_true_iff]
  tauto

theorem inBounds_iff (n : Nat) (c : Coordinate) :
    inBounds n c = true ↔ c.x < n ∧ c.y < n := by
  unfold inBounds
  simp [Bool.and_eq_true]

theorem mem_nodup_split {α : Type _} {l : List α} {a : α} (h : a ∈ l)
    (hnd : l.Nodup) : ∃ l₁ l₂, l = l₁ ++ a :: l₂ ∧ a ∉ l₁ ∧ a ∉ l₂ := by
  obtain ⟨l₁, l₂, rfl⟩ := List.append_of_mem h
  have h2 : (a :: (l₁ ++ l₂)).Nodup := List.nodup_middle.mp hnd
  have h3 : a ∉ l₁ ++ l₂ := (List.nodup_cons.mp h2).1
  simp only [List.mem_append] at h3
  exact ⟨l₁, l₂, rfl, fun hh => h3 (Or.inl hh), fun hh => h3 (Or.inr hh)⟩

theorem offsetRange_nodup (r : Nat) : (offsetRange r).Nodup := by
  unfold offsetRange
  refine List.Nodup.map ?_ (List.nodup_range _)
  intro a b hab
  simp only at hab
  omega

theorem mem_offsetRange (r : Nat) (z : Int) :
    z ∈ offsetRange r ↔ -(r : Int) ≤ z ∧ z ≤ (r : Int) := by
  unfold offsetRange
  simp only [List.mem_map, List.mem_range]
  constructor
  · rintro ⟨i, hi, rfl⟩
    omega
  · intro h
    exact ⟨(z + r).toNat, by omega, by omega⟩

theorem squareOffsets_nodup (r : Nat) : (squareOffsets r).Nodup :=
  List.Nodup.product (offsetRange_nodup r) (offsetRange_nodup r)

theorem mem_squareOffsets (r : Nat) (o : Int × Int) :
    o ∈ squareOffsets r ↔ o.1 ∈ offsetRange r ∧ o.2 ∈ offsetRange r := by
  unfold squareOffsets
  rcases o with ⟨dx, dy⟩
  simp only [List.mem_flatMap, List.mem_map, Prod.mk.injEq]
  constructor
  · rintro ⟨a, ha, b, hb, rfl, rfl⟩
    exact ⟨ha, hb⟩
  · rintro ⟨ha, hb⟩
    exact ⟨dx, ha, dy, hb, rfl, rfl⟩

theorem applyHazardOffset_untouched (h : Hazard) (gs : Nat) (m : RiskMap)
    (off : Int × Int) (c : Coordinate)
    (hne : off ≠ ((c.x : Int) - (h.location.x : Int), (c.y : Int) - (h.location.y : Int))) :
    applyHazardOffset h gs m off c = m c := by
  simp only [applyHazardOffset]
  split_ifs with hdia hbnd
  · dsimp only
    split_ifs with hc
    · exfalso
      rw [inBoundsInt_iff] at hbnd
      apply hne
      have hx : c.x = ((h.location.x : Int) + off.1).toNat := congrArg Coordinate.x hc
      have hy : c.y = ((h.location.y : Int) + off.2).toNat := congrArg Coordinate.y hc
      rcases off with ⟨dx, dy⟩
      simp only [Prod.mk.injEq]
      constructor <;> omega
    · rfl
  · rfl
  · rfl

theorem foldl_applyHazardOffset_untouched (h : Hazard) (gs : Nat)
    (l : List (Int × Int)) (m : RiskMap) (c : Coordinate)
    (hl : ∀ o ∈ l, o ≠ ((c.x : Int) - (h.location.x : Int), (c.y : Int) - (h.location.y : Int))) :
    (l.foldl (applyHazardOffset h gs) m) c = m c := by
  induction l generalizing m with
  | nil => rfl
  | cons o t ih =>
    rw [List.foldl_cons, ih _ (fun o' ho' => hl o' (List.mem_cons_of_mem _ ho')),
      applyHazardOffset_untouched h gs m o c (hl o (List.mem_cons_self _ _))]

theorem applyHazardOffset_hit (h : Hazard) (gs : Nat) (m : RiskMap) (c : Coordinate)
    (hin : inBounds gs c = true) (hd : manhattan c h.location ≤ h.radius) :
    applyHazardOffset h gs m
      ((c.x : Int) - (h.location.x : Int), (c.y : Int) - (h.location.y : Int)) c =
    (m c).map (fun nr =>
      let contribution := h.intensity * hazardWeight h.type *
        (1 / ((max 1 (manhattan c h.location) : Nat) : ℚ))
      let nr1 := { nr with total_risk := pyMin 1 (nr.total_risk + contribution) }
      match nr.dominant_hazard with
      | none => { nr1 with dominant_hazard := some h.type }
      | some d =>
          if hazardWeight d < contribution then { nr1 with dominant_hazard := some h.type }
          else nr1) := by
  rw [inBounds_iff] at hin
  have hdia : (((c.x : Int) - (h.location.x : Int)).natAbs +
      ((c.y : Int) - (h.location.y : Int)).natAbs) ≤ h.radius := hd
  have htx : (h.location.x : Int) + ((c.x : Int) - (h.location.x : Int)) = (c.x : Int) := by
    omega
  have hty : (h.location.y : Int) + ((c.y : Int) - (h.location.y : Int)) = (c.y : Int) := by
    omega
  simp only [applyHazardOffset]
  rw [if_pos hdia, htx, hty]
  have hbnd : inBoundsInt gs (c.x : Int) (c.y : Int) = true := by
    rw [inBoundsInt_iff]
    omega
  rw [if_pos hbnd, Int.toNat_natCast, Int.toNat_natCast,
    if_pos (show c = (⟨c.x, c.y⟩ : Coordinate) from rfl)]
  rfl

/-- C2. During a risk-field recompute, applying one hazard updates every
in-bounds cell in its diamond (Manhattan radius) exactly once: the cell's
`total_risk` grows by `contribution = intensity · weight(kind) ·
(1 / max(1, distance))`, clamped at 1.0, and `dominant_hazard` becomes the
hazard's kind exactly when it was unset or the contribution exceeds the
raw weight of the current dominant kind.  The per-kind weights are the
config defaults (fire 0.8, collapse 1.0, flood 0.6, gas_leak 0.9,
debris 0.4). -/
theorem applyHazardRisk_cell_update (h : Hazard) (m : RiskMap) (gs : Nat)
    (c : Coordinate) (r0 : NodeRisk)
    (hin : inBounds gs c = true)
    (hd : manhattan c h.location ≤ h.radius)
    (hm : m c = some r0) :
    applyHazardRisk h m gs c = some (
      let contribution := h.intensity * hazardWeight h.type *
        (1 / ((max 1 (manhattan c h.location) : Nat) : ℚ))
      let r1 := { r0 with total_risk := pyMin 1 (r0.total_risk + contribution) }
      match r0.dominant_hazard with
      | none => { r1 with dominant_hazard := some h.type }
      | some d =>
          if hazardWeight d < contribution then { r1 with dominant_hazard := some h.type }
          else r1) := by
  have hkey : ((c.x : Int) - (h.location.x : Int), (c.y : Int) - (h.location.y : Int))
      ∈ squareOffsets h.radius := by
    rw [mem_squareOffsets]
    unfold manhattan at hd
    constructor <;> rw [mem_offsetRange] <;> omega
  obtain ⟨l₁, l₂, hsplit, hn1, hn2⟩ := mem_nodup_split hkey (squareOffsets_nodup h.radius)
  unfold applyHazardRisk
  rw [hsplit, List.foldl_append, List.foldl_cons]
  rw [foldl_applyHazardOffset_untouched h gs l₂ _ c
    (fun o ho heq => hn2 (heq ▸ ho))]
  rw [applyHazardOffset_hit h gs _ c hin hd]
  rw [foldl_applyHazardOffset_untouched h gs l₁ m c
    (fun o ho heq => hn1 (heq ▸ ho))]
  rw [hm]
  rfl

/-- C2 witness: on a 3 × 3 zero-initialized risk map, the fire hazard
`hz` (intensity 1, radius 1, at (1,1)) raises the in-diamond cell (2, 1)
to `total_risk = 0.8` with `dominant_hazard = fire`. -/
theorem applyHazardRisk_cell_update_witness :
    applyHazardRisk hz (initRiskMap 3) 3 ⟨2, 1⟩ =
      some ⟨⟨2, 1⟩, 4/5, some .fire, .low⟩ := by
  rw [applyHazardRisk_cell_update hz (initRiskMap 3) 3 ⟨2, 1⟩ ⟨⟨2, 1⟩, 0, none, .low⟩
    (by decide) (by decide) (by decide)]
  rw [show manhattan ⟨2, 1⟩ hz.location = 1 from by decide]
  norm_num [pyMin, hz, hazardWeight]

theorem foldl_preserve {α : Type _} {β : Type _} (P : β → Prop) (f : β → α → β)
    (l : List α) (b : β) (hb : P b) (hf : ∀ b' a, a ∈ l → P b' → P (f b' a)) :
    P (l.foldl f b) := by
  induction l generalizing b with
  | nil => exact hb
  | cons x t ih =>
    exact ih (f b x) (hf b x (List.mem_cons_self _ _) hb)
      (fun b' a ha => hf b' a (List.mem_cons_of_mem _ ha))

theorem pyMin_one_mem (x : ℚ) (hx : 0 ≤ x) : 0 ≤ pyMin 1 x ∧ pyMin 1 x ≤ 1 := by
  unfold pyMin
  split_ifs with h
  · exact ⟨by norm_num, le_refl 1⟩
  · exact ⟨hx, le_of_lt (lt_of_not_ge h)⟩

theorem pyMax_nonneg (a b : ℚ) (ha : 0 ≤ a) (hb : 0 ≤ b) : 0 ≤ pyMax a b := by
  unfold pyMax
  split_ifs <;> assumption

theorem hazardWeight_nonneg (t : HazardType) : 0 ≤ hazardWeight t := by
  cases t <;> norm_num [hazardWeight]

theorem getRiskLevel_char (q : ℚ) :
    (getRiskLevel q = .critical ↔ 8/10 ≤ q) ∧
    (getRiskLevel q = .high ↔ 5/10 ≤ q ∧ q < 8/10) ∧
    (getRiskLevel q = .medium ↔ 2/10 ≤ q ∧ q < 5/10) ∧
    (getRiskLevel q = .low ↔ q < 2/10) := by
  unfold getRiskLevel
  split_ifs with h1 h2 h3
  · exact ⟨⟨fun _ => h1, fun _ => rfl⟩,
      ⟨fun hh => absurd hh (by decide), fun hh => by linarith [hh.2]⟩,
      ⟨fun hh => absurd hh (by decide), fun hh => by linarith [hh.2]⟩,
      ⟨fun hh => absurd hh (by decide), fun hh => by linarith⟩⟩
  · exact ⟨⟨fun hh => absurd hh (by decide), fun hge => absurd hge h1⟩,
      ⟨fun _ => ⟨h2, lt_of_not_ge h1⟩, fun _ => rfl⟩,
      ⟨fun hh => absurd hh (by decide), fun hh => by linarith [hh.2]⟩,
      ⟨fun hh => absurd hh (by decide), fun hh => by linarith⟩⟩
  · exact ⟨⟨fun hh => absurd hh (by decide), fun hge => absurd hge h1⟩,
      ⟨fun hh => absurd hh (by decide), fun hh => absurd hh.1 h2⟩,
      ⟨fun _ => ⟨h3, lt_of_not_ge h2⟩, fun _ => rfl⟩,
      ⟨fun hh => absurd hh (by decide), fun hh => by linarith⟩⟩
  · exact ⟨⟨fun hh => absurd hh (by decide), fun hge => absurd hge h1⟩,
      ⟨fun hh => absurd hh (by decide), fun hh => absurd hh.1 h2⟩,
      ⟨fun hh => absurd hh (by decide), fun hh => absurd hh.1 h3⟩,
      ⟨fun _ => lt_of_not_ge h3, fun _ => rfl⟩⟩

theorem applyHazardOffset_inv (n : Nat) (h : Hazard) (off : Int × Int)
    (hint : 0 ≤ h.intensity) (m : RiskMap)
    (hm : ∀ c, (((m c).isSome) ↔ inBounds n c = true) ∧
      ∀ r, m c = some r → 0 ≤ r.total_risk ∧ r.total_risk ≤ 1) :
    ∀ c, (((applyHazardOffset h n m off c).isSome) ↔ inBounds n c = true) ∧
      ∀ r, applyHazardOffset h n m off c = some r →
        0 ≤ r.total_risk ∧ r.total_risk ≤ 1 := by
  intro c
  simp only [applyHazardOffset]
  split_ifs with hdia hbnd
  · dsimp only
    split_ifs with hc
    · rw [← hc]
      constructor
      · rw [show ∀ (f : NodeRisk → NodeRisk) (x : Option NodeRisk),
            (Option.map f x).isSome = x.isSome from fun f x => by cases x <;> rfl]
        exact (hm c).1
      · intro r hr
        obtain ⟨r0, hr0, hrupd⟩ := Option.map_eq_some'.mp hr
        obtain ⟨hb0, hb1⟩ := (hm c).2 r0 hr0
        have hcon : 0 ≤ h.intensity * hazardWeight h.type *
            (RISK_DECAY_FACTOR_BASE /
              ((max 1 (off.1.natAbs + off.2.natAbs) : Nat) : ℚ)) := by
          refine mul_nonneg (mul_nonneg hint (hazardWeight_nonneg _)) ?_
          exact div_nonneg (by norm_num [RISK_DECAY_FACTOR_BASE]) (Nat.cast_nonneg _)
        have hmem := pyMin_one_mem _ (add_nonneg hb0 hcon)
        subst hrupd
        rcases hdom : r0.dominant_hazard with - | d <;> simp only [hdom]
        · exact hmem
        · split_ifs <;> exact hmem
    · exact hm c
  · exact hm c
  · exact hm c

theorem applyHazardRisk_inv (n : Nat) (h : Hazard) (hint : 0 ≤ h.intensity)
    (m : RiskMap)
    (hm : ∀ c, (((m c).isSome) ↔ inBounds n c = true) ∧
      ∀ r, m c = some r → 0 ≤ r.total_risk ∧ r.total_risk ≤ 1) :
    ∀ c, (((applyHazardRisk h m n c).isSome) ↔ inBounds n c = true) ∧
      ∀ r, applyHazardRisk h m n c = some r →
        0 ≤ r.total_risk ∧ r.total_risk ≤ 1 := by
  unfold applyHazardRisk
  exact foldl_preserve
    (fun mm => ∀ c, (((mm c).isSome) ↔ inBounds n c = true) ∧
      ∀ r, mm c = some r → 0 ≤ r.total_risk ∧ r.total_risk ≤ 1)
    (applyHazardOffset h n) (squareOffsets h.radius) m hm
    (fun m' off _ hm' => applyHazardOffset_inv n h off hint m' hm')

theorem propagateCell_bounds (env : EnvState) (m : RiskMap)
    (hm : ∀ c r, m c = some r → 0 ≤ r.total_risk ∧ r.total_risk ≤ 1)
    (nv : Coordinate → Option ℚ)
    (hq : ∀ c v, nv c = some v → 0 ≤ v ∧ v ≤ 1) (c0 : Coordinate) :
    ∀ c v, propagateCell env m nv c0 c = some v → 0 ≤ v ∧ v ≤ 1 := by
  unfold propagateCell
  cases hmc : m c0 with
  | none => exact hq
  | some nr =>
    dsimp only
    split_ifs with hpos
    · refine foldl_preserve (fun nv2 => ∀ c v, nv2 c = some v → 0 ≤ v ∧ v ≤ 1)
        _ (env.get_neighbors c0) nv hq ?_
      intro nv2 nb _ hq2
      intro c v hv
      dsimp only at hv
      split_ifs at hv with hceq
      · obtain ⟨v0, hv0, rfl⟩ := Option.map_eq_some'.mp hv
        obtain ⟨hv0l, -⟩ := hq2 nb v0 hv0
        have hprop : 0 ≤ nr.total_risk * RISK_PROPAGATION_FACTOR := by
          have := (hm c0 nr hmc).1
          exact mul_nonneg this (by norm_num [RISK_PROPAGATION_FACTOR])
        exact pyMin_one_mem _ (pyMax_nonneg _ _ hv0l hprop)
      · exact hq2 c v hv
    · exact hq

theorem applyNewRiskValues_spec (m : RiskMap) (nv : Coordinate → Option ℚ)
    (hm : ∀ c r, m c = some r → 0 ≤ r.total_risk ∧ r.total_risk ≤ 1)
    (hq : ∀ c v, nv c = some v → 0 ≤ v ∧ v ≤ 1) :
    ∀ c, ((applyNewRiskValues m nv c).isSome = (m c).isSome) ∧
      ∀ r, applyNewRiskValues m nv c = some r →
        0 ≤ r.total_risk ∧ r.total_risk ≤ 1 := by
  intro c
  unfold applyNewRiskValues
  cases hmc : m c with
  | none =>
    cases nv c <;> exact ⟨rfl, fun r hr => by cases hr⟩
  | some nr =>
    cases hnv : nv c with
    | none =>
      refine ⟨rfl, ?_⟩
      intro r hr
      cases hr
      exact hm c nr hmc
    | some v =>
      refine ⟨rfl, ?_⟩
      intro r hr
      cases hr
      exact hq c v hnv

/-- C6. After a risk-field recompute the map has an entry exactly for
every in-bounds coordinate; every entry's `total_risk` lies in [0, 1]
(provided each hazard's Pydantic-validated intensity is non-negative);
and every entry's `risk_level` is exactly the threshold classification of
its final `total_risk` (critical iff ≥ 0.8, high iff in [0.5, 0.8),
medium iff in [0.2, 0.5), low otherwise). -/
theorem recalculateRiskMap_coverage_bounds (env : EnvState)
    (hint : ∀ h ∈ env.hazards, 0 ≤ h.intensity) :
    ∀ c : Coordinate,
      ((recalculateRiskMapLogic env c).isSome ↔ inBounds env.grid_size c = true) ∧
      ∀ r, recalculateRiskMapLogic env c = some r →
        (0 ≤ r.total_risk ∧ r.total_risk ≤ 1) ∧
        (r.risk_level = .critical ↔ 8/10 ≤ r.total_risk) ∧
        (r.risk_level = .high ↔ 5/10 ≤ r.total_risk ∧ r.total_risk < 8/10) ∧
        (r.risk_level = .medium ↔ 2/10 ≤ r.total_risk ∧ r.total_risk < 5/10) ∧
        (r.risk_level = .low ↔ r.total_risk < 2/10) := by
  have h0 : ∀ c, (((initRiskMap env.grid_size) c).isSome ↔
      inBounds env.grid_size c = true) ∧
      ∀ r, initRiskMap env.grid_size c = some r →
        0 ≤ r.total_risk ∧ r.total_risk ≤ 1 := by
    intro c
    unfold initRiskMap
    split_ifs with hib
    · exact ⟨by simp [hib], by intro r hr; cases hr; exact ⟨le_refl 0, by norm_num⟩⟩
    · exact ⟨by simp [hib], by intro r hr; cases hr⟩
  have h1 := foldl_preserve
    (fun mm => ∀ c, (((mm c).isSome) ↔ inBounds env.grid_size c = true) ∧
      ∀ r, mm c = some r → 0 ≤ r.total_risk ∧ r.total_risk ≤ 1)
    (fun m h => applyHazardRisk h m env.grid_size) env.hazards
    (initRiskMap env.grid_size) h0
    (fun m' h hmem hm' => applyHazardRisk_inv env.grid_size h (hint h hmem) m' hm')
  set m1 := env.hazards.foldl (fun m h => applyHazardRisk h m env.grid_size)
    (initRiskMap env.grid_size) with hm1
  have hnv0 : ∀ c v, ((fun c => (m1 c).map (·.total_risk)) c) = some v →
      0 ≤ v ∧ v ≤ 1 := by
    intro c v hv
    obtain ⟨r0, hr0, rfl⟩ := Option.map_eq_some'.mp hv
    exact (h1 c).2 r0 hr0
  have hnv := foldl_preserve
    (fun nv => ∀ c v, nv c = some v → 0 ≤ v ∧ v ≤ 1)
    (propagateCell env m1) (gridCoords env.grid_size)
    (fun c => (m1 c).map (·.total_risk)) hnv0
    (fun nv c0 _ hq => propagateCell_bounds env m1
      (fun c r hr => (h1 c).2 r hr) nv hq c0)
  have h2 := applyNewRiskValues_spec m1
    ((gridCoords env.grid_size).foldl (propagateCell env m1)
      (fun c => (m1 c).map (·.total_risk)))
    (fun c r hr => (h1 c).2 r hr) hnv
  intro c
  have hfinal : recalculateRiskMapLogic env c =
      (applyNewRiskValues m1
        ((gridCoords env.grid_size).foldl (propagateCell env m1)
          (fun c => (m1 c).map (·.total_risk))) c).map
        (fun nr => { nr with risk_level := getRiskLevel nr.total_risk }) := rfl
  constructor
  · rw [hfinal, show ∀ (f : NodeRisk → NodeRisk) (x : Option NodeRisk),
        (Option.map f x).isSome = x.isSome from fun f x => by cases x <;> rfl,
      (h2 c).1]
    exact (h1 c).1
  · intro r hr
    rw [hfinal] at hr
    obtain ⟨nr, hnr, rfl⟩ := Option.map_eq_some'.mp hr
    have hb := (h2 c).2 nr hnr
    obtain ⟨hc1, hc2, hc3, hc4⟩ := getRiskLevel_char nr.total_risk
    exact ⟨hb, hc1, hc2, hc3, hc4⟩

theorem mem_get_neighbors (env : EnvState) (a b : Coordinate)
    (h : b ∈ env.get_neighbors a) :
    inBounds env.grid_size b = true ∧
    (∃ node, env.grid b = some node ∧ node.is_passable = true) ∧
    manhattan a b = 1 := by
  unfold EnvState.get_neighbors at h
  simp only [List.mem_filterMap] at h
  obtain ⟨mv, hmv, hsome⟩ := h
  by_cases hib : inBoundsInt env.grid_size mv.1 mv.2 = true
  case neg => rw [if_neg hib] at hsome; cases hsome
  rw [if_pos hib] at hsome
  rcases hgr : env.grid ⟨mv.1.toNat, mv.2.toNat⟩ with - | node
  · rw [hgr] at hsome; cases hsome
  · rw [hgr] at hsome
    dsimp only at hsome
    by_cases hpass : node.is_passable = true
    · rw [if_pos hpass] at hsome
      have hb : (⟨mv.1.toNat, mv.2.toNat⟩ : Coordinate) = b := Option.some.inj hsome
      subst hb
      rw [inBoundsInt_iff] at hib
      refine ⟨?_, ⟨node, hgr, hpass⟩, ?_⟩
      · rw [inBounds_iff]
        dsimp only
        omega
      · simp only [List.mem_cons, List.not_mem_nil, or_false] at hmv
        rcases hmv with rfl | rfl | rfl | rfl <;> (unfold manhattan; dsimp only) <;> omega
    · rw [if_neg hpass] at hsome
      cases hsome

theorem mem_get_neighbors_ne (env : EnvState) (a b : Coordinate)
    (h : b ∈ env.get_neighbors a) : b ≠ a := by
  have hm := (mem_get_neighbors env a b h).2.2
  intro heq
  subst heq
  unfold manhattan at hm
  omega

theorem popMin_spec (q : List HeapEntry) (e : HeapEntry) (rest : List HeapEntry)
    (h : popMin q = some (e, rest)) : e ∈ q ∧ ∀ x ∈ rest, x ∈ q := by
  match q with
  | [] => exact absurd h (by simp [popMin])
  | y :: t =>
    unfold popMin at h
    simp only [Option.some.injEq, Prod.mk.injEq] at h
    obtain ⟨he, hrest⟩ := h
    subst he
    subst hrest
    constructor
    · rcases foldl_min_mem t y with hm | hm
      · rw [hm]; exact List.mem_cons_self _ _
      · exact List.mem_cons_of_mem _ hm
    · intro x hx
      exact List.mem_of_mem_erase hx

theorem aStarInv_update (env : EnvState) (start cur nb : Coordinate)
    (st : AStarState) (gcur rsk fval : ℚ)
    (hnb : nb ∈ env.get_neighbors cur)
    (hgc : st.gScore cur = some gcur)
    (hrel : ∀ gn, st.gScore nb = some gn → gcur + 1 < gn)
    (hinv : AStarInv env start st) :
    AStarInv env start
      { openSet := st.openSet ++ [(fval, gcur + 1, nb)]
        cameFrom := fun c => if c = nb then some cur else st.cameFrom c
        gScore := fun c => if c = nb then some (gcur + 1) else st.gScore c
        riskScore := fun c => if c = nb then some rsk else st.riskScore c
        fScore := fun c => if c = nb then some fval else st.fScore c } := by
  have hg0 := hinv.g_nonneg cur gcur hgc
  have hne_start : nb ≠ start := by
    intro heq
    subst heq
    have hlt := hrel 0 hinv.g_start
    linarith
  have hne_cur : nb ≠ cur := mem_get_neighbors_ne env cur nb hnb
  constructor
  · show (if start = nb then some (gcur + 1) else st.gScore start) = some 0
    rw [if_neg (fun hh => hne_start hh.symm)]
    exact hinv.g_start
  · intro c q hq
    dsimp only at hq
    split_ifs at hq with hc
    · have : gcur + 1 = q := Option.some.inj hq
      linarith
    · exact hinv.g_nonneg c q hq
  · intro n p hcf
    dsimp only at hcf ⊢
    split_ifs at hcf with hn
    · have hp : cur = p := Option.some.inj hcf
      subst hp
      subst hn
      refine ⟨gcur + 1, gcur, ?_, ?_, le_refl _, hnb⟩
      · rw [if_pos rfl]
      · rw [if_neg (fun hh => hne_cur hh.symm)]
        exact hgc
    · obtain ⟨gn, gp, hgnn, hgp, hle, hmem⟩ := hinv.cf_spec n p hcf
      by_cases hp : p = nb
      · subst hp
        refine ⟨gn, gcur + 1, ?_, ?_, ?_, hmem⟩
        · rw [if_neg hn]; exact hgnn
        · rw [if_pos rfl]
        · have := hrel gp hgp
          linarith
      · refine ⟨gn, gp, ?_, ?_, hle, hmem⟩
        · rw [if_neg hn]; exact hgnn
        · rw [if_neg hp]; exact hgp
  · intro c hc
    dsimp only at hc ⊢
    by_cases hcn : c = nb
    · right
      rw [if_pos hcn]
      rfl
    · rw [if_neg hcn] at hc
      rcases hinv.g_dom c hc with h | h
      · exact Or.inl h
      · right
        rw [if_neg hcn]
        exact h

theorem expandNeighbor_inv (env : EnvState) (goal : Coordinate) (obj : String)
    (start cur : Coordinate) (st : AStarState) (nb : Coordinate)
    (hnb : nb ∈ env.get_neighbors cur)
    (hinv : AStarInv env start st) :
    AStarInv env start (expandNeighbor env goal obj cur st nb) := by
  unfold expandNeighbor
  cases hgr : env.get_grid_node nb with
  | none => exact hinv
  | some node =>
    dsimp only
    by_cases hpass : (!node.is_passable) = true
    · rw [if_pos hpass]
      exact hinv
    · rw [if_neg hpass]
      cases hgc : st.gScore cur with
      | none => exact hinv
      | some gcur =>
        cases hrc : st.riskScore cur with
        | none => exact hinv
        | some rcur =>
          dsimp only
          cases hgn : st.gScore nb with
          | none =>
            dsimp only
            exact aStarInv_update env start cur nb st gcur _ _ hnb hgc
              (fun gn hgn' => by rw [hgn] at hgn'; cases hgn') hinv
          | some gn =>
            dsimp only
            cases hd : (decide (gcur + 1 < gn)) with
            | false => exact hinv
            | true =>
              exact aStarInv_update env start cur nb st gcur _ _ hnb hgc
                (fun gn' hgn' => by
                  rw [hgn] at hgn'
                  have : gn = gn' := Option.some.inj hgn'
                  subst this
                  exact of_decide_eq_true hd) hinv

theorem reconstructPath_spec (env : EnvState) (start : Coordinate)
    (cf : Coordinate → Option Coordinate) (g : Coordinate → Option ℚ)
    (hcf : ∀ n p, cf n = some p → ∃ gn gp, g n = some gn ∧ g p = some gp ∧
      gp + 1 ≤ gn ∧ n ∈ env.get_neighbors p)
    (hdom : ∀ c, (g c).isSome = true → c = start ∨ (cf c).isSome = true) :
    ∀ fuel cur p gcur, g cur = some gcur →
      reconstructPath cf fuel cur = some p →
      p.head? = some start ∧ p.getLast? = some cur ∧
      List.Chain' (fun a b => b ∈ env.get_neighbors a) p ∧
      (∀ x ∈ p, ∃ gx, g x = some gx ∧ gx ≤ gcur) ∧
      List.Pairwise (fun a b => ∀ ga gb, g a = some ga → g b = some gb → ga < gb) p := by
  intro fuel
  induction fuel with
  | zero =>
    intro cur p gcur hg hrec
    exact absurd hrec (by simp [reconstructPath])
  | succ fuel ih =>
    intro cur p gcur hg hrec
    unfold reconstructPath at hrec
    cases hcfc : cf cur with
    | none =>
      rw [hcfc] at hrec
      have hp : [cur] = p := Option.some.inj hrec
      subst hp
      have hstart : cur = start := by
        rcases hdom cur (by rw [hg]; rfl) with h | h
        · exact h
        · rw [hcfc] at h
          cases h
      refine ⟨by rw [hstart]; rfl, rfl, List.chain'_singleton _, ?_, List.pairwise_singleton _ _⟩
      intro x hx
      have : x = cur := by simpa using hx
      subst this
      exact ⟨gcur, hg, le_refl _⟩
    | some prev =>
      rw [hcfc] at hrec
      obtain ⟨p', hp', hpp⟩ := Option.map_eq_some'.mp hrec
      subst hpp
      obtain ⟨gn, gp, hgn, hgp, hle, hnbr⟩ := hcf cur prev hcfc
      have hgneq : gn = gcur := Option.some.inj (hgn.symm.trans hg)
      subst hgneq
      obtain ⟨hhead, hlast, hchain, hbound, hpw⟩ := ih prev p' gp hgp hp'
      have hp'ne : p' ≠ [] := by
        intro hnil
        rw [hnil] at hhead
        cases hhead
      refine ⟨?_, ?_, ?_, ?_, ?_⟩
      · cases p' with
        | nil => exact absurd rfl hp'ne
        | cons a t => simpa using hhead
      · rw [List.getLast?_concat]
      · refine List.Chain'.append hchain (List.chain'_singleton _) ?_
        intro x hx y hy
        have hx' : x = prev := by
          rw [Option.mem_def, hlast] at hx
          exact (Option.some.inj hx).symm
        have hy' : y = cur := by
          rw [Option.mem_def] at hy
          exact (Option.some.inj hy).symm
        subst hx'
        subst hy'
        exact hnbr
      · intro x hx
        rcases List.mem_append.mp hx with hx | hx
        · obtain ⟨gx, hgx, hxle⟩ := hbound x hx
          exact ⟨gx, hgx, by linarith⟩
        · have : x = cur := by simpa using hx
          subst this
          exact ⟨gn, hg, le_refl _⟩
      · rw [List.pairwise_append]
        refine ⟨hpw, List.pairwise_singleton _ _, ?_⟩
        intro a ha b hb
        have hb' : b = cur := by simpa using hb
        subst hb'
        intro ga gb hga hgb
        obtain ⟨gx, hgx, hxle⟩ := hbound a ha
        have hxa : gx = ga := Option.some.inj (hgx.symm.trans hga)
        subst hxa
        have hbn : gb = gn := Option.some.inj (hgb.symm.trans hg)
        subst hbn
        linarith

theorem aStarInv_init (env : EnvState) (start goal : Coordinate) (obj : String) :
    AStarInv env start (aStarInitState start goal obj) := by
  constructor
  · show (if start = start then some (0 : ℚ) else none) = some 0
    rw [if_pos rfl]
  · intro c q hq
    dsimp only [aStarInitState] at hq
    by_cases hc : c = start
    · rw [if_pos hc] at hq
      have h0 : (0 : ℚ) = q := Option.some.inj hq
      linarith
    · rw [if_neg hc] at hq
      cases hq
  · intro n p hcf
    dsimp only [aStarInitState] at hcf
    cases hcf
  · intro c hc
    dsimp only [aStarInitState] at hc
    by_cases hcs : c = start
    · exact Or.inl hcs
    · rw [if_neg hcs] at hc
      cases hc

theorem aStarLoop_sound (env : EnvState) (start goal : Coordinate) (obj : String)
    (rfuel : Nat) :
    ∀ fuel st p cost risk, AStarInv env start st →
      aStarLoop env goal obj rfuel fuel st = some (p, cost, risk) →
      p.head? = some start ∧ p.getLast? = some goal ∧
      List.Chain' (fun a b => b ∈ env.get_neighbors a) p ∧ p.Nodup := by
  intro fuel
  induction fuel with
  | zero =>
    intro st p cost risk hinv h
    exact absurd h (by simp [aStarLoop])
  | succ fuel ih =>
    intro st p cost risk hinv h
    unfold aStarLoop at h
    cases hpop : popMin st.openSet with
    | none =>
      rw [hpop] at h
      cases h
    | some er =>
      obtain ⟨e, rest⟩ := er
      rw [hpop] at h
      dsimp only at h
      by_cases hgoal : e.2.2 = goal
      · rw [if_pos hgoal] at h
        cases hrec : reconstructPath st.cameFrom rfuel e.2.2 with
        | none =>
          rw [hrec] at h
          cases h
        | some pp =>
          rw [hrec] at h
          cases hgs : st.gScore e.2.2 with
          | none =>
            rw [hgs] at h
            cases h
          | some gv =>
            rw [hgs] at h
            cases hrs : st.riskScore e.2.2 with
            | none =>
              rw [hrs] at h
              cases h
            | some rv =>
              rw [hrs] at h
              simp only [Option.some.injEq, Prod.mk.injEq] at h
              obtain ⟨rfl, -, -⟩ := h
              obtain ⟨hh, hl, hc, hb, hpw⟩ := reconstructPath_spec env start
                st.cameFrom st.gScore hinv.cf_spec hinv.g_dom rfuel e.2.2 _ gv hgs hrec
              rw [hgoal] at hl
              refine ⟨hh, hl, hc, ?_⟩
              refine List.Pairwise.imp_of_mem ?_ hpw
              intro a b ha _ hr heq
              subst heq
              obtain ⟨ga, hga, -⟩ := hb a ha
              exact absurd (hr ga ga hga hga) (lt_irrefl ga)
      · rw [if_neg hgoal] at h
        have hinv1 : AStarInv env start { st with openSet := rest } :=
          ⟨hinv.g_start, hinv.g_nonneg, hinv.cf_spec, hinv.g_dom⟩
        have hinv2 := foldl_preserve (AStarInv env start)
          (expandNeighbor env goal obj e.2.2) (env.get_neighbors e.2.2)
          { st with openSet := rest } hinv1
          (fun st' nb hnbm hi => expandNeighbor_inv env goal obj start e.2.2 st' nb hnbm hi)
        exact ih _ p cost risk hinv2 h

theorem chain'_mem_tail {α : Type _} {R : α → α → Prop} :
    ∀ {l : List α}, List.Chain' R l → ∀ x ∈ l.tail, ∃ a, R a x := by
  intro l
  induction l with
  | nil =>
    intro _ x hx
    cases hx
  | cons a t ih =>
    intro h x hx
    cases t with
    | nil => cases hx
    | cons b t' =>
      rcases List.mem_cons.mp hx with rfl | hx'
      · exact ⟨a, (List.chain'_cons.mp h).1⟩
      · exact ih (List.chain'_cons.mp h).2 x hx'

/-- C3 (amended). Whenever the A* planner returns a path, the path starts
at the agent's start coordinate, ends at the goal, every consecutive pair
of coordinates differs by exactly one step in one axis (4-connected), and
every cell except possibly the start is in-bounds and passable; when the
start cell itself is in-bounds and passable, every cell on the path is.
(The search never validates the start cell — see the counterexample.) -/
theorem aStar_path_sound (env : EnvState) (start goal : Coordinate) (obj : String)
    (fuel : Nat) (p : List Coordinate) (cost risk : ℚ)
    (h : aStarSearch env start goal obj fuel = some (p, cost, risk)) :
    p.head? = some start ∧ p.getLast? = some goal ∧
    List.Chain' (fun a b => manhattan a b = 1) p ∧
    (∀ c ∈ p.tail, inBounds env.grid_size c = true ∧
      ∃ node, env.grid c = some node ∧ node.is_passable = true) ∧
    ((inBounds env.grid_size start = true ∧
        ∃ node, env.grid start = some node ∧ node.is_passable = true) →
      ∀ c ∈ p, inBounds env.grid_size c = true ∧
        ∃ node, env.grid c = some node ∧ node.is_passable = true) := by
  obtain ⟨hh, hl, hc, -⟩ := aStarLoop_sound env start goal obj fuel fuel
    (aStarInitState start goal obj) p cost risk (aStarInv_init env start goal obj) h
  refine ⟨hh, hl, ?_, ?_, ?_⟩
  · exact List.Chain'.imp (fun a b hab => (mem_get_neighbors env a b hab).2.2) hc
  · intro c hcm
    obtain ⟨a, hab⟩ := chain'_mem_tail hc c hcm
    obtain ⟨hib, hnode, -⟩ := mem_get_neighbors env a c hab
    exact ⟨hib, hnode⟩
  · intro hstart c hcm
    cases p with
    | nil => cases hh
    | cons a t =>
      have ha : a = start := Option.some.inj hh
      subst ha
      rcases List.mem_cons.mp hcm with rfl | hct
      · exact hstart
      · obtain ⟨a', hab⟩ := chain'_mem_tail hc c hct
        obtain ⟨hib, hnode, -⟩ := mem_get_neighbors env a' c hab
        exact ⟨hib, hnode⟩

/-- C3 witness: a concrete search on the fully passable 2 × 2 grid `env2`
(start = goal = (0,0)) returns the path [(0,0)] and all the soundness
facts hold for it. -/
theorem aStar_path_sound_witness :
    (([⟨0, 0⟩] : List Coordinate).head? = some ⟨0, 0⟩) ∧
    (([⟨0, 0⟩] : List Coordinate).getLast? = some ⟨0, 0⟩) ∧
    List.Chain' (fun a b => manhattan a b = 1) ([⟨0, 0⟩] : List Coordinate) ∧
    (∀ c ∈ ([⟨0, 0⟩] : List Coordinate).tail,
      inBounds env2.grid_size c = true ∧
      ∃ node, env2.grid c = some node ∧ node.is_passable = true) ∧
    ((inBounds env2.grid_size ⟨0, 0⟩ = true ∧
        ∃ node, env2.grid ⟨0, 0⟩ = some node ∧ node.is_passable = true) →
      ∀ c ∈ ([⟨0, 0⟩] : List Coordinate),
        inBounds env2.grid_size c = true ∧
        ∃ node, env2.grid c = some node ∧ node.is_passable = true) :=
  aStar_path_sound env2 ⟨0, 0⟩ ⟨0, 0⟩ "minimize_time" 5 [⟨0, 0⟩] 0 0 (by decide)

/-- C3 counterexample. The search never checks the start cell: with the
single cell (0,0) of `envBad` impassable and start = goal = (0,0), the
planner still returns the path [(0,0)], whose only cell is impassable —
refuting "every cell on the path is in-bounds and passable" as stated. -/
theorem aStar_impassable_start :
    aStarSearch envBad ⟨0, 0⟩ ⟨0, 0⟩ "minimize_time" 5 = some ([⟨0, 0⟩], 0, 0) ∧
    envBad.grid ⟨0, 0⟩ = some ⟨⟨0, 0⟩, false, 0⟩ := by
  exact ⟨by decide, rfl⟩

/-- C10. Every path returned by the A* planner is simple: the g-score
strictly increases along the back-pointer chain, so no coordinate occurs
more than once in the returned sequence. -/
theorem aStar_path_nodup (env : EnvState) (start goal : Coordinate) (obj : String)
    (fuel : Nat) (p : List Coordinate) (cost risk : ℚ)
    (h : aStarSearch env start goal obj fuel = some (p, cost, risk)) :
    p.Nodup :=
  (aStarLoop_sound env start goal obj fuel fuel (aStarInitState start goal obj)
    p cost risk (aStarInv_init env start goal obj) h).2.2.2

/-- C10 witness: a path returned by a concrete search on `env2` has no
duplicate coordinate. -/
theorem aStar_path_nodup_witness :
    ([⟨0, 0⟩] : List Coordinate).Nodup :=
  aStar_path_nodup env2 ⟨0, 0⟩ ⟨0, 0⟩ "minimize_time" 5 [⟨0, 0⟩] 0 0 (by decide)

/-- C6 witness: the coverage, bound and classification facts instantiated
on the concrete 3 × 3 environment `env3` at the hazard cell (1, 1). -/
theorem recalculateRiskMap_coverage_bounds_witness :
    ((recalculateRiskMapLogic env3 ⟨1, 1⟩).isSome ↔
      inBounds env3.grid_size ⟨1, 1⟩ = true) ∧
    ∀ r, recalculateRiskMapLogic env3 ⟨1, 1⟩ = some r →
      (0 ≤ r.total_risk ∧ r.total_risk ≤ 1) ∧
      (r.risk_level = .critical ↔ 8/10 ≤ r.total_risk) ∧
      (r.risk_level = .high ↔ 5/10 ≤ r.total_risk ∧ r.total_risk < 8/10) ∧
      (r.risk_level = .medium ↔ 2/10 ≤ r.total_risk ∧ r.total_risk < 5/10) ∧
      (r.risk_level = .low ↔ r.total_risk < 2/10) :=
  recalculateRiskMap_coverage_bounds env3 (by decide) ⟨1, 1⟩

end Adrie
